import Mathlib

/-!
Verification of the tap-openproject stream extraction engine.

This file gives a shallow embedding, in Lean 4, of the pure computational
core of the repository:

* `tap_openproject/streams.py` — HAL-link resolution
  (`extract_id_from_href`, `flatten_link`), pagination cursor computation
  (`get_next_page_token`), URL parameters with the replication-key filter
  (`get_url_params`, `_validate_datetime`), response classification
  (`parse_response`, `UsersStream.parse_response`), and per-stream
  post-processing (`ProjectsStream.post_process`,
  `MembershipsStream.post_process`).
* `tap_openproject/http_client.py` — endpoint sanitisation and URL
  construction in `HttpClient.get`, and the retry configuration of
  `HttpClient._create_session`.
* `tap_openproject/tap.py` — the pre-sync resolution of project
  identifiers (`_resolve_project_identifiers`, `_preprocess_config`).

JSON values (Python dicts/lists/strings/ints/None as they appear after
`response.json()`) are embedded as the inductive `JVal`; Python dict
operations and truthiness are modelled explicitly.  Fallible Python code
(code that raises) is embedded with `Option`/`Except`.
-/

/-- A JSON value as produced by `response.json()` in Python: `None`,
strings, integers, booleans, objects (dicts, as ordered association
lists) and arrays. -/
inductive JVal where
  | null
  | str (s : String)
  | int (n : Int)
  | jbool (b : Bool)
  | obj (fields : List (String × JVal))
  | arr (elems : List JVal)

/-- Python truthiness of a JSON value: `None`, `""`, `0`, `False`, `{}`
and `[]` are falsy, everything else is truthy. -/
def truthy : JVal → Bool
  | .null => false
  | .str s => !(s == "")
  | .int n => !(n == 0)
  | .jbool b => b
  | .obj fields => !fields.isEmpty
  | .arr elems => !elems.isEmpty

/-- A Python dict with string keys, as an ordered association list (first
occurrence wins on lookup, as dict keys are unique in practice). -/
abbrev Row := List (String × JVal)

/-- Model of `d.get(k)` returning `none` when the key is absent. -/
def dictGet : Row → String → Option JVal
  | [], _ => none
  | (k', v) :: rest, k => if k' = k then some v else dictGet rest k

/-- Whether the dict has the key (`k in d`). -/
def hasKey (d : Row) (k : String) : Bool := (dictGet d k).isSome

/-- Model of `d[k] = v`: replace the value in place when the key exists (Python
dicts keep the original position), append otherwise. -/
def dictSet (d : Row) (k : String) (v : JVal) : Row :=
  if hasKey d k then d.map (fun p => if p.1 = k then (p.1, v) else p)
  else d ++ [(k, v)]

/-- Model of `d.update(kvs)`: set each key/value pair of `kvs` in order. -/
def dictUpdate (d : Row) (kvs : Row) : Row :=
  kvs.foldl (fun r p => dictSet r p.1 p.2) d

/-- Model of `d.get(k)` as seen by later Python code: an absent key and a key
mapped to JSON `null` both come back as Python `None`. -/
def pyGet (d : Row) (k : String) : JVal := (dictGet d k).getD .null

/-- The fields of a JSON object; `[]` for non-objects (on which the
Python code would raise, outside the modelled domain). -/
def objFields : JVal → Row
  | .obj fields => fields
  | _ => []

/-- View a JSON value as an optional string: `null` (Python `None`)
becomes `none`.  Faithful on the HAL-link domain, where `href`/`title`
are strings or null. -/
def asOptStr : JVal → Option String
  | .str s => some s
  | _ => none

/-- An optional extracted id rendered back into a JSON field value. -/
def optIntJ : Option Int → JVal
  | some n => .int n
  | none => .null

/-! ### String helpers with Python semantics -/

/-- Model of `s.rstrip('/')`: drop every trailing `'/'`. -/
def pyRstripSlash (s : String) : String :=
  ⟨(s.data.reverse.dropWhile (· = '/')).reverse⟩

/-- Model of `s.lstrip('/')`: drop every leading `'/'`. -/
def lstripSlash (s : String) : String := ⟨s.data.dropWhile (· = '/')⟩

/-- Model of `'..' in s` on the underlying characters. -/
def containsDDList : List Char → Bool
  | a :: b :: rest => (a = '.' && b = '.') || containsDDList (b :: rest)
  | _ => false

/-- Model of `'..' in s`. -/
def containsDD (s : String) : Bool := containsDDList s.data

/-- Model of `s.startswith(p)`. -/
def strStarts (s p : String) : Bool := go s.data p.data
where
  go : List Char → List Char → Bool
    | _, [] => true
    | [], _ :: _ => false
    | c :: cs, d :: ds => c = d && go cs ds

/-- ASCII decimal digit test (`'0'..'9'`). -/
def isDigitChar (c : Char) : Bool := '0' ≤ c && c ≤ '9'

/-- Numeric value of a decimal digit character. -/
def digitVal (c : Char) : Nat := c.toNat - '0'.toNat

/-- Decimal value of a digit list (most significant first). -/
def digitsVal (cs : List Char) : Nat :=
  cs.foldl (fun acc c => 10 * acc + digitVal c) 0

/-- Helper for `pyIntOfString?`: after an initial digit, the body may
continue with digits, with single underscores allowed between digits
(Python 3.6+ numeric literal grouping accepted by `int()`). -/
def pyIntBodyGo : List Char → Bool
  | [] => true
  | c :: rest =>
    if isDigitChar c then pyIntBodyGo rest
    else if c = '_' then
      match rest with
      | d :: rest2 => isDigitChar d && pyIntBodyGo rest2
      | [] => false
    else false

/-- The digit body of a Python integer literal: non-empty, starts with a
digit, single underscores only between digits. -/
def pyIntBody : List Char → Bool
  | [] => false
  | c :: rest => isDigitChar c && pyIntBodyGo rest

/-- ASCII whitespace stripped by Python `int(str)`. -/
def isPyWs (c : Char) : Bool :=
  c = ' ' || c = '\t' || c = '\n' || c = '\r' || c = '\x0b' || c = '\x0c'

/-- Python `int(s)`, returning `none` instead of raising `ValueError`:
strip whitespace, allow one sign, then decimal digits with underscore
grouping.  (Non-ASCII digits and whitespace are outside the modelled
domain.) -/
def pyIntOfString? (s : String) : Option Int :=
  let cs := (s.data.dropWhile isPyWs).reverse.dropWhile isPyWs |>.reverse
  match cs with
  | '+' :: rest => if pyIntBody rest then some (digitsVal (rest.filter isDigitChar)) else none
  | '-' :: rest => if pyIntBody rest then some (-(digitsVal (rest.filter isDigitChar) : Int)) else none
  | rest => if pyIntBody rest then some (digitsVal (rest.filter isDigitChar)) else none

/-- Python `s.split('/')` on the character level: split at every `'/'`,
with `""` mapping to `[""]`. -/
def splitOnSlashList : List Char → List (List Char)
  | [] => [[]]
  | c :: rest =>
    let r := splitOnSlashList rest
    if c = '/' then [] :: r
    else
      match r with
      | s :: ss => (c :: s) :: ss
      | [] => [[c]]

/-- The last `'/'`-separated segment of a string (Python
`s.split('/')[-1]`; `split` on a non-empty separator never yields an
empty list, so the default is never reached). -/
def lastSegment (s : String) : String := ⟨(splitOnSlashList s.data).getLastD []⟩

/-! ### Link resolver (`streams.py`, `OpenProjectStream`) -/

/-- Model of `OpenProjectStream.extract_id_from_href` (streams.py:94-111): extract
the numeric id from a HAL href.  Returns `none` for `None` or `""`
(Python falsiness), otherwise strips trailing slashes, splits on `'/'`
and parses the last segment with `int()`, catching `ValueError`. -/
def extract_id_from_href : Option String → Option Int
  | none => none
  | some href =>
    if href = "" then none
    else pyIntOfString? (lastSegment (pyRstripSlash href))

/-- Model of `OpenProjectStream.flatten_link` (streams.py:113-136): extract title
and (optionally) id from the HAL link `links[key]`.  `links.get(key, {})`
is checked for truthiness; the result dict holds `"<key>_title"` first
and then `"<key>_id"`, exactly as the Python inserts them. -/
def flatten_link (links : Row) (key : String) (extract_id : Bool) : Row :=
  let link_obj := (dictGet links key).getD (.obj [])
  if truthy link_obj then
    let fs := objFields link_obj
    (key ++ "_title", pyGet fs "title") ::
      (if extract_id then
        [(key ++ "_id", optIntJ (extract_id_from_href (asOptStr (pyGet fs "href"))))]
      else [])
  else
    (key ++ "_title", .null) :: (if extract_id then [(key ++ "_id", .null)] else [])

/-- Well-formed HAL link value: JSON null, or an object whose `href` and
`title` entries (when present) are strings or null.  On anything else the
Python code would raise `AttributeError`/`TypeError`, outside the claims'
domain. -/
def wfLink : JVal → Bool
  | .null => true
  | .obj fs =>
    (match pyGet fs "href" with | .str _ => true | .null => true | _ => false) &&
    (match pyGet fs "title" with | .str _ => true | .null => true | _ => false)
  | _ => false


/-! ### Pagination cursor (`streams.py`, `OpenProjectStream.get_next_page_token`) -/

/-- The pagination-relevant content of one page response body:
whether `_links` contains the key `"nextByOffset"`, and the optional
top-level `total`, `pageSize` and `offset` numbers (absent keys take the
Python defaults below), plus the length of `_embedded.elements` (the
default for `pageSize`). -/
structure PageData where
  hasNextByOffset : Bool
  total : Option Int
  pageSize : Option Int
  offset : Option Int
  elementsCount : Nat

/-- Model of `OpenProjectStream.get_next_page_token` (streams.py:197-223): if a
`"nextByOffset"` link is present, compute
`next_offset = data.get("offset", 0) + data.get("pageSize", len(elements))`
and return it when `next_offset < data.get("total", 0)`; otherwise
return `None`. -/
def get_next_page_token (d : PageData) : Option Int :=
  if d.hasNextByOffset then
    let total := d.total.getD 0
    let page_size := d.pageSize.getD (Int.ofNat d.elementsCount)
    let current_offset := d.offset.getD 0
    let next_offset := current_offset + page_size
    if next_offset < total then some next_offset else none
  else none

/-- Modelled from the spec: the Pagination Driver loop of §4.3 (the
request loop lives in the Singer SDK, outside this repository's sources).
Starting from an undefined cursor, it issues a request at the cursor's
offset (`0` for the first page, since an absent/zero token adds no
`offset` parameter), reads the page, and continues while
`get_next_page_token` produces a cursor.  `fuel` bounds the number of
requests; the returned list records the offset of every request issued,
in order. -/
def drive (fetch : Int → PageData) : Nat → Option Int → List Int
  | 0, _ => []
  | Nat.succ fuel, tok =>
    let off := tok.getD 0
    let page := fetch off
    off ::
      (match get_next_page_token page with
       | some t => drive fetch fuel (some t)
       | none => [])

/-- A server whose project list has `total = 250` elements served in
pages of `pageSize = 100`: the page at `off` reports its own offset and a
`nextByOffset` link exactly when elements remain beyond it. -/
def server250 (off : Int) : PageData :=
  { hasNextByOffset := decide (off + 100 < 250)
    total := some 250
    pageSize := some 100
    offset := some off
    elementsCount := (min 100 (250 - off)).toNat }

/-! ### Response classification (`streams.py`, `parse_response`) -/

/-- The errors `OpenProjectStream.parse_response` can raise. -/
inductive ApiError where
  | retriable (status : Nat)
  | fatal (status : Nat)
  | fatalJson

/-- Model of `data.get("_embedded", {}).get("elements", [])`: the record array of
a page body. -/
def elementsOf (data : JVal) : List JVal :=
  match (dictGet (objFields data) "_embedded").getD (.obj []) with
  | .obj emb =>
    match (dictGet emb "elements").getD (.arr []) with
    | .arr rs => rs
    | _ => []
  | _ => []

/-- Model of `OpenProjectStream.parse_response` (streams.py:167-195):
`raise_for_status` raises for any 4xx/5xx status; the handler re-raises
`RetriableAPIError` for 5xx and `FatalAPIError` for everything else
(i.e. all 4xx, including 429).  On success, a body that is not valid
JSON (`body = none`) raises `FatalAPIError`; otherwise the embedded
elements are yielded. -/
def parse_response (status : Nat) (body : Option JVal) : Except ApiError (List JVal) :=
  if 400 ≤ status ∧ status < 600 then
    if 500 ≤ status ∧ status < 600 then .error (.retriable status)
    else .error (.fatal status)
  else
    match body with
    | none => .error .fatalJson
    | some data => .ok (elementsOf data)

/-- Model of `HttpClient._create_session` (http_client.py:59-76): the
`status_forcelist` of the urllib3 `Retry` strategy — the statuses the
legacy HTTP client's session retries. -/
def status_forcelist : List Nat := [429, 500, 502, 503, 504]

/-- urllib3 capped exponential backoff with
`backoff_factor = DEFAULT_BACKOFF_FACTOR = 2` (http_client.py:18,64-70):
the sleep before the `k`-th retry is `2 * 2^(k-1)` seconds, capped at
urllib3's `BACKOFF_MAX = 120`. -/
def retryBackoff (k : Nat) : Nat := min 120 (2 * 2 ^ (k - 1))

/-- Model of `UsersStream.parse_response` (streams.py:486-501): an HTTP 403 is
logged as a warning (first component `true`) and yields no records —
before any status or JSON handling; every other response is delegated to
the base `parse_response` (no warning). -/
def users_parse_response (status : Nat) (body : Option JVal) :
    Bool × Except ApiError (List JVal) :=
  if status = 403 then (true, .ok [])
  else (false, parse_response status body)

/-! ### Per-stream post-processing (`streams.py`) -/

/-- The `_links`-value of a HAL record as a link object, if present and
truthy (the guard `if "_links" in row and row["_links"]:`). -/
def truthyLinks (row : Row) : Option Row :=
  match dictGet row "_links" with
  | some links => if truthy links then some (objFields links) else none
  | none => none

namespace ProjectsStream

/-- Model of `ProjectsStream.post_process` (streams.py:264-280): when `_links` is
present and truthy, `row.update(flatten_link(links, "parent"))`;
otherwise set `parent_id = None` and then `parent_title = None`. -/
def post_process (row : Row) : Row :=
  match truthyLinks row with
  | some links => dictUpdate row (flatten_link links "parent" true)
  | none => dictSet (dictSet row "parent_id" .null) "parent_title" .null

end ProjectsStream

namespace MembershipsStream

/-- Model of `r.get(k)` where `r` is one element of the `roles` array (a link
object); Python would raise on a non-object element, outside the
modelled domain. -/
def linkGet (r : JVal) (k : String) : JVal := pyGet (objFields r) k

/-- The `role_ids` array (streams.py:723-727): for the roles with a
truthy `href`, in order, the extracted id (JSON null when the href's
trailing segment is not numeric). -/
def role_ids_of (roles : List JVal) : List JVal :=
  (roles.filter (fun r => truthy (linkGet r "href"))).map
    (fun r => optIntJ (extract_id_from_href (asOptStr (linkGet r "href"))))

/-- The `role_titles` array (streams.py:728-732): the truthy titles, in
order. -/
def role_titles_of (roles : List JVal) : List JVal :=
  (roles.filter (fun r => truthy (linkGet r "title"))).map
    (fun r => linkGet r "title")

/-- Model of `MembershipsStream.post_process` (streams.py:706-740): when `_links`
is truthy, flatten the `project` and `principal` links, then build
`role_ids` and `role_titles` from `links.get("roles", [])` by two
independent truthiness-filtered comprehensions; otherwise null out the
flattened fields and set both role arrays to `[]`. -/
def post_process (row : Row) : Row :=
  match truthyLinks row with
  | some links =>
    let r1 := dictUpdate row (flatten_link links "project" true)
    let r2 := dictUpdate r1 (flatten_link links "principal" true)
    let roles :=
      match (dictGet links "roles").getD (.arr []) with
      | .arr rs => rs
      | _ => []
    let r3 := dictSet r2 "role_ids" (.arr (role_ids_of roles))
    dictSet r3 "role_titles" (.arr (role_titles_of roles))
  | none =>
    let r1 := dictSet row "project_id" .null
    let r2 := dictSet r1 "project_title" .null
    let r3 := dictSet r2 "principal_id" .null
    let r4 := dictSet r3 "principal_title" .null
    let r5 := dictSet r4 "role_ids" (.arr [])
    dictSet r5 "role_titles" (.arr [])

end MembershipsStream

/-! ### HTTP client URL construction (`http_client.py`, `HttpClient.get`) -/

namespace HttpClient

/-- Whether a reference begins with a URI scheme (`alpha (alnum|+|-|.)* ":"`
before any `/`, `?` or `#`), in which case `urljoin` returns the
reference itself. -/
def hasScheme (s : String) : Bool :=
  match s.data with
  | c :: rest => c.isAlpha && go rest
  | [] => false
where
  go : List Char → Bool
    | [] => false
    | c :: rest =>
      if c = ':' then true
      else if c.isAlphanum || c = '+' || c = '-' || c = '.' then go rest
      else false

/-- Join a list of path segments back with `'/'`. -/
def joinSegs : List String → String
  | [] => ""
  | [s] => s
  | s :: rest => s ++ "/" ++ joinSegs rest

/-- RFC 3986 `remove_dot_segments` on a segment list (as `urljoin`
applies to the merged path): `"."` segments vanish, `".."` segments pop
the previous segment, and a trailing `"."`/`".."` leaves a trailing
slash. -/
def remDotAux : List String → List String → List String
  | stack, [] => stack.reverse
  | stack, "." :: [] => stack.reverse ++ [""]
  | stack, "." :: rest => remDotAux stack rest
  | stack, ".." :: [] => (stack.drop 1).reverse ++ [""]
  | stack, ".." :: rest => remDotAux (stack.drop 1) rest
  | stack, s :: rest => remDotAux (s :: stack) rest

/-- Split a reference into its path and the query/fragment suffix (dot
segment removal applies only to the path). -/
def splitPathRest (s : String) : String × String :=
  let path := s.data.takeWhile (fun c => !(c = '?') && !(c = '#'))
  (⟨path⟩, ⟨s.data.drop path.length⟩)

/-- Model of `urllib.parse.urljoin(base, rel)` on the domain reached
from `HttpClient.get`: `base` is the configured base URL followed by
`"/"`, and `rel` never starts with `"/"` (it was `lstrip`-ed).  A `rel`
carrying its own scheme is returned unchanged (Python also returns it
unchanged unless its scheme and authority match the base, a case the
base-prefix check below accepts either way); otherwise the reference is
resolved against `base` with dot-segment removal on the path. -/
def urljoin (base rel : String) : String :=
  if hasScheme rel then rel
  else
    let (path, rest) := splitPathRest rel
    base ++ joinSegs (remDotAux [] ((path : String).data.foldr
      (fun c segs =>
        match segs with
        | s :: ss => if c = '/' then "" :: s :: ss else (⟨[c]⟩ ++ s) :: ss
        | [] => [⟨[c]⟩]) [""])) ++ rest

/-- Model of `HttpClient.get` (http_client.py:85-110), up to the point the request
URL is fixed: `endpoint.lstrip('/')`, reject endpoints containing `".."`
or starting with `"/"` (`ValueError`, no request issued), build the URL
with `urljoin(f"{base_url}/", endpoint)`, and reject a constructed URL
that does not start with the stored base URL.  `base_url` is the value
stored by `__init__`, i.e. already `rstrip('/')`-normalised. -/
def get_url (base_url endpoint : String) : Except String String :=
  let e := lstripSlash endpoint
  if containsDD e || strStarts e "/" then
    .error ("Invalid endpoint: " ++ e)
  else
    let url := urljoin (base_url ++ "/") e
    if strStarts url base_url then .ok url
    else .error ("Constructed URL " ++ url ++ " is outside base URL " ++ base_url)

end HttpClient

/-! ### Replication-filter datetime validation (`streams.py`,
`_validate_datetime` / `get_url_params`)

`_validate_datetime` accepts exactly the strings on which
`datetime.fromisoformat(date_string.replace('Z', '+00:00'))` succeeds.
`fromisoformat` is modelled below from its CPython behaviour for the
supported interpreters (`python_requires >= 3.8` in setup.py): the
grammar `YYYY-MM-DD[*HH[:MM[:SS[.fff[fff]]]][+HH:MM[:SS[.ffffff]]]]`
where `*` is any single character, with calendar and range validation.
Python 3.11 widened the accepted set, but every string these theorems
evaluate the model on behaves identically from 3.8 through 3.12
(3.11+ still rejects ordinal dates and still allows an arbitrary
single-character date/time separator). -/

/-- Gregorian leap year. -/
def isLeapYear (y : Nat) : Bool := (y % 4 == 0 && y % 100 != 0) || y % 400 == 0

/-- Days in a month of the proleptic Gregorian calendar. -/
def daysInMonth (y m : Nat) : Nat :=
  if m = 2 then (if isLeapYear y then 29 else 28)
  else if m = 4 || m = 6 || m = 9 || m = 11 then 30
  else 31

/-- Two decimal digits. -/
def parse2 (a b : Char) : Option Nat :=
  if isDigitChar a && isDigitChar b then some (10 * digitVal a + digitVal b) else none

/-- Four decimal digits. -/
def parse4 (a b c d : Char) : Option Nat :=
  if isDigitChar a && isDigitChar b && isDigitChar c && isDigitChar d then
    some (1000 * digitVal a + 100 * digitVal b + 10 * digitVal c + digitVal d)
  else none

/-- Model of `_parse_isoformat_date` plus the `datetime` constructor's range
checks: exactly `YYYY-MM-DD` with `MINYEAR = 1 ≤ year`, a valid month
and a valid day of month. -/
def parseIsoDate (cs : List Char) : Option (Nat × Nat × Nat) :=
  match cs with
  | [y1, y2, y3, y4, '-', m1, m2, '-', d1, d2] =>
    match parse4 y1 y2 y3 y4, parse2 m1 m2, parse2 d1 d2 with
    | some y, some m, some d =>
      if 1 ≤ y && 1 ≤ m && m ≤ 12 && 1 ≤ d && d ≤ daysInMonth y m then
        some (y, m, d)
      else none
    | _, _, _ => none
  | _ => none

/-- All characters are decimal digits. -/
def allDigits (cs : List Char) : Bool := cs.all isDigitChar

/-- Model of `_parse_hh_mm_ss_ff`: `HH`, `HH:MM`, `HH:MM:SS`, or `HH:MM:SS.fff` /
`HH:MM:SS.ffffff` (a fraction of exactly 3 or 6 digits); range checking
happens afterwards. -/
def parseHMSF (cs : List Char) : Option (Nat × Nat × Nat × Nat) :=
  match cs with
  | [h1, h2] =>
    (parse2 h1 h2).map (fun h => (h, 0, 0, 0))
  | [h1, h2, ':', m1, m2] =>
    match parse2 h1 h2, parse2 m1 m2 with
    | some h, some m => some (h, m, 0, 0)
    | _, _ => none
  | [h1, h2, ':', m1, m2, ':', s1, s2] =>
    match parse2 h1 h2, parse2 m1 m2, parse2 s1 s2 with
    | some h, some m, some s => some (h, m, s, 0)
    | _, _, _ => none
  | h1 :: h2 :: ':' :: m1 :: m2 :: ':' :: s1 :: s2 :: '.' :: frac =>
    match parse2 h1 h2, parse2 m1 m2, parse2 s1 s2 with
    | some h, some m, some s =>
      if allDigits frac then
        if frac.length = 3 then some (h, m, s, 1000 * digitsVal frac)
        else if frac.length = 6 then some (h, m, s, digitsVal frac)
        else none
      else none
    | _, _, _ => none
  | _ => none

/-- Split a time string at the first `'+'` or `'-'` (the UTC-offset
sign), as CPython's parser scans for it. -/
def splitAtSign : List Char → List Char × Option (List Char)
  | [] => ([], none)
  | c :: rest =>
    if c = '+' || c = '-' then ([], some rest)
    else
      let (a, b) := splitAtSign rest
      (c :: a, b)

/-- Model of `_parse_isoformat_time` plus constructor range checks: the time part
(hour ≤ 23, minute ≤ 59, second ≤ 59), optionally followed by a UTC
offset whose text must be 5, 8 or 15 characters (`HH:MM`, `HH:MM:SS`,
`HH:MM:SS.ffffff`) and whose magnitude must be strictly below 24 hours
(`timezone` accepts any such `timedelta`; offset components are not
individually range-checked). -/
def parseIsoTime (cs : List Char) : Bool :=
  let (timestr, tz?) := splitAtSign cs
  match parseHMSF timestr with
  | none => false
  | some (h, m, s, _) =>
    h ≤ 23 && m ≤ 59 && s ≤ 59 &&
    (match tz? with
     | none => true
     | some tzs =>
       (tzs.length == 5 || tzs.length == 8 || tzs.length == 15) &&
       (match parseHMSF tzs with
        | none => false
        | some (th, tm, ts, tf) =>
          decide ((th * 3600 + tm * 60 + ts) * 1000000 + tf < 86400000000)))

/-- Model of `datetime.fromisoformat` (CPython, C implementation): a 10-character
`YYYY-MM-DD` date; or that date, one arbitrary separator character, and
a non-empty time part. -/
def fromisoformatOk (s : String) : Bool :=
  let cs := s.data
  if cs.length = 10 then (parseIsoDate cs).isSome
  else if 12 ≤ cs.length then
    (parseIsoDate (cs.take 10)).isSome && parseIsoTime (cs.drop 11)
  else false

/-- Model of `date_string.replace('Z', '+00:00')`: every `'Z'` is textually
replaced. -/
def replaceZ (s : String) : String :=
  ⟨s.data.foldr
    (fun c acc =>
      if c = 'Z' then '+' :: '0' :: '0' :: ':' :: '0' :: '0' :: acc else c :: acc)
    []⟩

/-- Model of `OpenProjectStream._validate_datetime` (streams.py:80-92): `true`
exactly when `datetime.fromisoformat(date_string.replace('Z','+00:00'))`
succeeds; otherwise the method raises `ValueError`. -/
def validate_datetime (date_string : String) : Bool :=
  fromisoformatOk (replaceZ date_string)

/-! Ground truth for the claim's words "valid ISO-8601 datetime string". -/

/-- ISO 8601 extended-format date: calendar `YYYY-MM-DD` or ordinal
`YYYY-DDD` (week dates, basic format and expanded years are omitted from
this profile; no theorem below evaluates it on such strings). -/
def isoDateOk (cs : List Char) : Bool :=
  match cs with
  | [y1, y2, y3, y4, '-', m1, m2, '-', d1, d2] =>
    (match parse4 y1 y2 y3 y4, parse2 m1 m2, parse2 d1 d2 with
     | some y, some m, some d =>
       1 ≤ m && m ≤ 12 && 1 ≤ d && d ≤ daysInMonth y m
     | _, _, _ => false)
  | [y1, y2, y3, y4, '-', o1, o2, o3] =>
    (match parse4 y1 y2 y3 y4 with
     | some y =>
       isDigitChar o1 && isDigitChar o2 && isDigitChar o3 &&
       (let o := digitsVal [o1, o2, o3]
        1 ≤ o && o ≤ (if isLeapYear y then 366 else 365))
     | none => false)
  | _ => false

/-- Non-empty digit run (a fraction). -/
def fracOk (cs : List Char) : Bool := !cs.isEmpty && allDigits cs

/-- ISO 8601 extended-format local time: `hh`, `hh:mm` or `hh:mm:ss`,
optionally with a `','`/`'.'` fraction on the smallest present
component. -/
def isoTimeOk (cs : List Char) : Bool :=
  match cs with
  | h1 :: h2 :: rest =>
    (match parse2 h1 h2 with
     | none => false
     | some h =>
       h ≤ 23 &&
       (match rest with
        | [] => true
        | c :: rest2 =>
          if c = '.' || c = ',' then fracOk rest2
          else if c = ':' then
            (match rest2 with
             | m1 :: m2 :: rest3 =>
               (match parse2 m1 m2 with
                | none => false
                | some m =>
                  m ≤ 59 &&
                  (match rest3 with
                   | [] => true
                   | c2 :: rest4 =>
                     if c2 = '.' || c2 = ',' then fracOk rest4
                     else if c2 = ':' then
                       (match rest4 with
                        | s1 :: s2 :: rest5 =>
                          (match parse2 s1 s2 with
                           | none => false
                           | some s =>
                             s ≤ 59 &&
                             (match rest5 with
                              | [] => true
                              | c3 :: rest6 => (c3 = '.' || c3 = ',') && fracOk rest6))
                        | _ => false)
                     else false))
             | _ => false)
          else false))
  | _ => false

/-- ISO 8601 UTC offset after the sign: `hh` or `hh:mm`. -/
def isoZoneHM (cs : List Char) : Bool :=
  match cs with
  | [h1, h2] => (parse2 h1 h2).elim false (· ≤ 23)
  | [h1, h2, ':', m1, m2] =>
    (match parse2 h1 h2, parse2 m1 m2 with
     | some h, some m => h ≤ 23 && m ≤ 59
     | _, _ => false)
  | _ => false

/-- Split the first `'T'`. -/
def splitAtT : List Char → Option (List Char × List Char)
  | [] => none
  | c :: rest =>
    if c = 'T' then some ([], rest)
    else (splitAtT rest).map (fun p => (c :: p.1, p.2))

/-- Modelled from the spec: a "valid ISO-8601 datetime string" — an
ISO 8601 extended-format date, the mandated `'T'` separator, a time,
and an optional zone designator (`'Z'` or `±hh[:mm]`). -/
def isISO8601Datetime (s : String) : Bool :=
  match splitAtT s.data with
  | none => false
  | some (d, t) =>
    isoDateOk d &&
    (let (tm, z?) := splitAtSign t
     match z? with
     | some z => isoTimeOk tm && isoZoneHM z
     | none =>
       match tm.getLast? with
       | some 'Z' => isoTimeOk tm.dropLast
       | _ => isoTimeOk tm)

/-! ### URL parameters (`streams.py`, `get_url_params`) -/

/-- The query parameters `get_url_params` produces. -/
structure UrlParams where
  offset : Option Int
  filters : Option String

/-- The filter expression of streams.py:163, with `\x7b`/`\x7d` the
literal braces:
`[{"<replication_key>":{"operator":">=","values":["<start_date>"]}}]`. -/
def filterExpr (rk sd : String) : String :=
  "[\x7b\"" ++ rk ++ "\":\x7b\"operator\":\">=\",\"values\":[\"" ++ sd ++ "\"]\x7d\x7d]"

/-- Truthiness of an optional string (absent, `None` and `""` are
falsy). -/
def optTruthy : Option String → Bool
  | none => false
  | some s => !(s == "")

/-- Model of `OpenProjectStream.get_url_params` (streams.py:138-165): add
`offset` when the token is truthy; when the stream has a replication
key, the config has a truthy `start_date` and there is no starting
replication value (watermark), validate `start_date` — raising
`ValueError` (the `error` case) on failure, before any request — and
otherwise add the server-side `filters` expression. -/
def get_url_params (replication_key start_date watermark : Option String)
    (next_page_token : Option Int) : Except String UrlParams :=
  let offset : Option Int :=
    match next_page_token with
    | some t => if t == 0 then none else some t
    | none => none
  if optTruthy replication_key && optTruthy start_date && !optTruthy watermark then
    let rk := replication_key.getD ""
    let sd := start_date.getD ""
    if validate_datetime sd then
      .ok ⟨offset, some (filterExpr rk sd)⟩
    else .error ("Invalid date format: " ++ sd ++ ". Must be ISO 8601 datetime.")
  else .ok ⟨offset, none⟩

/-! ### Project-identifier resolution (`tap.py`) -/

namespace TapOpenProject

/-- A project element of the paginated `/projects` response: its
`identifier` (absent or null collapse to `none`, matching
`p.get("identifier")`) and its `id`. -/
structure ProjElem where
  identifier : Option String
  id : Int

/-- One page of the `/projects` response: the embedded elements and the
optional top-level `total` (`data.get("total", 0)`). -/
structure ProjPage where
  elements : List ProjElem
  total : Option Int

/-- The paging loop of `_resolve_project_identifiers` (tap.py:141-165):
starting at `offset = 1`, fetch a page; a `requests.RequestException`
(which includes `raise_for_status` failures and malformed-JSON errors)
aborts with `error`; an empty page breaks; otherwise the elements are
accumulated, the loop breaks when `offset + len(projects) ≥ total`
(`total` defaulting to 0), and continues at `offset + 100` otherwise.
`fuel` bounds the iterations (`none` = exhausted): on a server whose
reported `total` keeps outrunning the offset the Python loop itself
does not terminate. -/
def collectProjects (fetch : Int → Except Unit ProjPage) :
    Nat → Int → Option (Except Unit (List ProjElem))
  | 0, _ => none
  | Nat.succ fuel, offset =>
    match fetch offset with
    | .error e => some (.error e)
    | .ok page =>
      if page.elements.isEmpty then some (.ok [])
      else
        let total := page.total.getD 0
        if total ≤ offset + page.elements.length then some (.ok page.elements)
        else (collectProjects fetch fuel (offset + 100)).map (·.map (page.elements ++ ·))

/-- Association-list lookup for the identifier → id map. -/
def idMapGet : List (String × Int) → String → Option Int
  | [], _ => none
  | (k', v) :: rest, k => if k' = k then some v else idMapGet rest k

/-- Association-list insert with overwrite (later pages win, as in the
Python dict assignment). -/
def idMapSet (m : List (String × Int)) (k : String) (v : Int) : List (String × Int) :=
  if (idMapGet m k).isSome then m.map (fun p => if p.1 = k then (p.1, v) else p)
  else m ++ [(k, v)]

/-- Model of `id_map` (tap.py:157-159): for every fetched project with a truthy
`identifier`, map it to the project's `id`. -/
def build_id_map (ps : List ProjElem) : List (String × Int) :=
  ps.foldl
    (fun m p =>
      match p.identifier with
      | some s => if s == "" then m else idMapSet m s p.id
      | none => m)
    []

/-- The configuration keys `_resolve_project_identifiers` reads and
writes (`project_identifiers` absent = `[]`). -/
structure TapConfig where
  project_identifiers : List String
  project_ids : Option (List Int)
  base_url : String
  api_key : Option String

/-- What the resolution step logs: the identifiers warned about as
unresolvable, and whether a request failure was logged as an error. -/
structure ResolveLog where
  missing : List String
  requestError : Bool

/-- Python truthiness of the optional `project_ids` list. -/
def projectIdsTruthy (cfg : TapConfig) : Bool :=
  match cfg.project_ids with
  | some l => !l.isEmpty
  | none => false

/-- Model of `TapOpenProject._resolve_project_identifiers` (tap.py:112-195): skip
when there are no identifiers or base URL / API key are missing; page
through the project list; on a request failure, log an error and leave
the config untouched (the run proceeds); otherwise resolve the
configured identifiers through the id map, log the unresolved ones as a
warning, and — when at least one resolved — merge into `project_ids` as
`list(set(existing + resolved))`, modelled by `List.dedup`. -/
def resolve_project_identifiers (fetch : Int → Except Unit ProjPage) (fuel : Nat)
    (cfg : TapConfig) : TapConfig × ResolveLog :=
  if cfg.project_identifiers.isEmpty then (cfg, ⟨[], false⟩)
  else if pyRstripSlash cfg.base_url == "" || !optTruthy cfg.api_key then
    (cfg, ⟨[], false⟩)
  else
    match collectProjects fetch fuel 1 with
    | none => (cfg, ⟨[], false⟩)
    | some (.error _) => (cfg, ⟨[], true⟩)
    | some (.ok projects) =>
      let id_map := build_id_map projects
      let resolved_ids := cfg.project_identifiers.filterMap (idMapGet id_map)
      let missing := cfg.project_identifiers.filter (fun i => (idMapGet id_map i).isNone)
      if resolved_ids.isEmpty then (cfg, ⟨missing, false⟩)
      else
        let existing := cfg.project_ids.getD []
        ({ cfg with project_ids := some (existing ++ resolved_ids).dedup }, ⟨missing, false⟩)

/-- Model of `TapOpenProject._preprocess_config` (tap.py:83-110), dict case:
resolve identifiers exactly when `project_identifiers` is truthy and
`project_ids` is not; the (frozen) config is returned either way. -/
def preprocess_config (fetch : Int → Except Unit ProjPage) (fuel : Nat)
    (cfg : TapConfig) : TapConfig × ResolveLog :=
  if !cfg.project_identifiers.isEmpty && !projectIdsTruthy cfg then
    resolve_project_identifiers fetch fuel cfg
  else (cfg, ⟨[], false⟩)

end TapOpenProject

/-! ### Lemmas about the dict model -/

theorem dictGet_map_set (d : Row) (k : String) (v : JVal) (h : hasKey d k = true) :
    dictGet (d.map (fun p => if p.1 = k then (p.1, v) else p)) k = some v := by
  induction d with
  | nil => simp [hasKey, dictGet] at h
  | cons p rest ih =>
    rw [List.map_cons]
    by_cases hp : p.1 = k
    · rw [if_pos hp]
      simp [dictGet, hp]
    · rw [if_neg hp]
      have h' : hasKey rest k = true := by
        simpa [hasKey, dictGet, hp] using h
      simp [dictGet, hp, ih h']

theorem dictGet_map_set_ne (d : Row) (k k' : String) (v : JVal) (h : k' ≠ k) :
    dictGet (d.map (fun p => if p.1 = k then (p.1, v) else p)) k' = dictGet d k' := by
  induction d with
  | nil => simp [dictGet]
  | cons p rest ih =>
    rw [List.map_cons]
    by_cases hp : p.1 = k
    · rw [if_pos hp]
      have hne : ¬ (p.1 = k') := by rw [hp]; exact Ne.symm h
      simp [dictGet, hne, hp ▸ hne, ih]
    · rw [if_neg hp]
      by_cases hp' : p.1 = k' <;> simp [dictGet, hp', ih]

theorem dictGet_append_one (d : Row) (k : String) (v : JVal) (h : hasKey d k = false) :
    dictGet (d ++ [(k, v)]) k = some v := by
  induction d with
  | nil => simp [dictGet]
  | cons p rest ih =>
    by_cases hp : p.1 = k
    · simp [hasKey, dictGet, hp] at h
    · have h' : hasKey rest k = false := by
        simpa [hasKey, dictGet, hp] using h
      simp [dictGet, hp, ih h']

theorem dictGet_append_one_ne (d : Row) (k k' : String) (v : JVal) (h : k' ≠ k) :
    dictGet (d ++ [(k, v)]) k' = dictGet d k' := by
  induction d with
  | nil => simp [dictGet, Ne.symm h]
  | cons p rest ih =>
    by_cases hp' : p.1 = k' <;> simp [dictGet, hp', ih]

/-- Setting a key makes it present with the new value. -/
theorem dictGet_dictSet_self (d : Row) (k : String) (v : JVal) :
    dictGet (dictSet d k v) k = some v := by
  unfold dictSet
  by_cases h : hasKey d k
  · simp only [h, if_true]; exact dictGet_map_set d k v h
  · simp only [h, if_false]
    exact dictGet_append_one d k v (by simpa using h)

/-- Setting a key leaves every other key unchanged. -/
theorem dictGet_dictSet_ne (d : Row) (k k' : String) (v : JVal) (h : k' ≠ k) :
    dictGet (dictSet d k v) k' = dictGet d k' := by
  unfold dictSet
  by_cases hk : hasKey d k
  · simp only [hk, if_true]; exact dictGet_map_set_ne d k k' v h
  · simp only [hk, if_false]; exact dictGet_append_one_ne d k k' v h

/-! ### Lemmas about substring containment -/

/-- List-level `startswith`. -/
def startsList : List Char → List Char → Bool
  | _, [] => true
  | [], _ :: _ => false
  | c :: cs, d :: ds => c = d && startsList cs ds

/-- List-level substring containment. -/
def containsList (hay needle : List Char) : Bool :=
  match hay with
  | [] => needle.isEmpty
  | _ :: rest => startsList hay needle || containsList rest needle

/-- Model of `sub in s` (Python substring containment). -/
def strContains (s sub : String) : Bool := containsList s.data sub.data

theorem startsList_append (n b : List Char) : startsList (n ++ b) n = true := by
  induction n with
  | nil => cases b <;> rfl
  | cons c cs ih => simp [startsList, ih]

theorem containsList_of_startsList (hay needle : List Char)
    (h : startsList hay needle = true) : containsList hay needle = true := by
  cases hay with
  | nil => cases needle with
    | nil => rfl
    | cons d ds => simp [startsList] at h
  | cons c rest => simp [containsList, h]

theorem containsList_append_left (a t n : List Char)
    (h : containsList t n = true) : containsList (a ++ t) n = true := by
  induction a with
  | nil => simpa using h
  | cons c rest ih => simp [containsList, ih]

theorem containsList_mid (a n b : List Char) :
    containsList (a ++ (n ++ b)) n = true :=
  containsList_append_left a (n ++ b) n
    (containsList_of_startsList (n ++ b) n (startsList_append n b))

/-- Any string of the shape `a ++ s ++ b` contains `s`. -/
theorem strContains_mid (a s b : String) : strContains (a ++ s ++ b) s = true := by
  have h : (a ++ s ++ b).data = a.data ++ (s.data ++ b.data) := by
    simp [String.data_append, List.append_assoc]
  unfold strContains
  rw [h]
  exact containsList_mid a.data s.data b.data

/-- Dropping leading slashes cannot erase a `".."` occurrence: the
occurrence has no `'/'`, so it survives `lstrip('/')`. -/
theorem containsDDList_dropWhile (l : List Char) (h : containsDDList l = true) :
    containsDDList (l.dropWhile (· = '/')) = true := by
  induction l with
  | nil => simp [containsDDList] at h
  | cons c rest ih =>
    by_cases hc : c = '/'
    · rw [List.dropWhile_cons_of_pos (by simp [hc])]
      apply ih
      cases rest with
      | nil => simp [containsDDList] at h
      | cons b rest' =>
        have : ¬ (c = '.') := by rw [hc]; decide
        simpa [containsDDList, this] using h
    · rwa [List.dropWhile_cons_of_neg (by simp [hc])]

/-- Model of `'..' in endpoint` survives `endpoint.lstrip('/')`. -/
theorem containsDD_lstripSlash (s : String) (h : containsDD s = true) :
    containsDD (lstripSlash s) = true :=
  containsDDList_dropWhile s.data h

/-- Model of `flatten_link` with id extraction always yields exactly the two
fields `<key>_title` then `<key>_id`. -/
theorem flatten_link_shape (links : Row) (key : String) :
    ∃ t i, flatten_link links key true = [(key ++ "_title", t), (key ++ "_id", i)] := by
  unfold flatten_link
  by_cases h : truthy ((dictGet links key).getD (JVal.obj [])) = true
  · simp only [h, if_true]
    exact ⟨_, _, rfl⟩
  · simp only [Bool.not_eq_true] at h
    simp only [h, Bool.false_eq_true, if_false]
    exact ⟨_, _, rfl⟩

/-- Appending different suffixes to the same string yields different
strings. -/
theorem append_ne_of_data_ne (a s t : String) (h : s.data ≠ t.data) :
    a ++ s ≠ a ++ t := by
  intro he
  apply h
  have hd := congrArg String.data he
  rw [String.data_append, String.data_append] at hd
  exact List.append_cancel_left hd

theorem key_title_ne_key_id (key : String) : key ++ "_title" ≠ key ++ "_id" :=
  append_ne_of_data_ne key "_title" "_id" (by decide)

theorem key_id_ne_key_title (key : String) : key ++ "_id" ≠ key ++ "_title" :=
  append_ne_of_data_ne key "_id" "_title" (by decide)

/-! ## Claim theorems -/

/-- One driver step: a request is issued at the cursor's offset and the
loop continues per `get_next_page_token`. -/
theorem drive_succ (fetch : Int → PageData) (f : Nat) (tok : Option Int) :
    drive fetch (f + 1) tok =
      (tok.getD 0) ::
        (match get_next_page_token (fetch (tok.getD 0)) with
         | some t => drive fetch f (some t)
         | none => []) := rfl

/-- C1: the next-cursor computation returns `currentOffset + pageSize`
exactly when a `nextByOffset` link indicator is present and that sum is
strictly less than `total`, and returns no cursor (terminating the
stream) otherwise; consequently, against a server reporting
`total = 250` and `pageSize = 100`, the driver issues exactly 3 requests
at offsets 0, 100 and 200 and terminates after the third, for any
remaining request budget. -/
theorem next_page_token_pagination :
    (∀ (d : PageData) (n : Int),
        get_next_page_token d = some n ↔
          d.hasNextByOffset = true ∧
          n = d.offset.getD 0 + d.pageSize.getD (Int.ofNat d.elementsCount) ∧
          n < d.total.getD 0) ∧
    (∀ fuel : Nat, drive server250 (fuel + 3) none = [0, 100, 200]) := by
  constructor
  · intro d n
    unfold get_next_page_token
    by_cases h : d.hasNextByOffset = true
    · rw [if_pos h]
      by_cases h2 : d.offset.getD 0 + d.pageSize.getD (Int.ofNat d.elementsCount) <
          d.total.getD 0
      · rw [if_pos h2]
        constructor
        · intro he
          have hx : d.offset.getD 0 + d.pageSize.getD (Int.ofNat d.elementsCount) = n := by
            injection he
          exact ⟨h, hx.symm, hx ▸ h2⟩
        · rintro ⟨-, rfl, -⟩
          rfl
      · rw [if_neg h2]
        constructor
        · intro he; cases he
        · rintro ⟨-, rfl, hlt⟩
          exact absurd hlt h2
    · rw [if_neg h]
      constructor
      · intro he; cases he
      · rintro ⟨hn, -, -⟩
        exact absurd hn h
  · intro fuel
    have s0 : get_next_page_token (server250 0) = some 100 := by decide
    have s1 : get_next_page_token (server250 100) = some 200 := by decide
    have s2 : get_next_page_token (server250 200) = none := by decide
    have e3 : fuel + 3 = (fuel + 2) + 1 := rfl
    have e2 : fuel + 2 = (fuel + 1) + 1 := rfl
    rw [e3, drive_succ]
    simp only [Option.getD_none, s0]
    rw [e2, drive_succ]
    simp only [Option.getD_some, s1]
    rw [drive_succ]
    simp only [Option.getD_some, s2]

/-- C1 witness: a concrete page with `nextByOffset`, `offset = 0`,
`pageSize = 100`, `total = 250` yields the cursor 100. -/
theorem next_page_token_pagination_witness :
    get_next_page_token ⟨true, some 250, some 100, some 0, 100⟩ = some 100 :=
  (next_page_token_pagination.1 ⟨true, some 250, some 100, some 0, 100⟩ 100).mpr
    ⟨rfl, by decide, by decide⟩

/-- C4 counterexample: response handling in `parse_response` treats 429
as an immediate `FatalAPIError` (not retriable) and 501 as
`RetriableAPIError`, so the retriable statuses are not exactly
{429, 500, 502, 503, 504} (that list is only the legacy session's
`status_forcelist`). -/
theorem parse_response_429_fatal :
    parse_response 429 (some (JVal.obj [])) = Except.error (ApiError.fatal 429) ∧
    parse_response 501 (some (JVal.obj [])) = Except.error (ApiError.retriable 501) ∧
    429 ∈ status_forcelist ∧ ¬ 501 ∈ status_forcelist := by
  refine ⟨rfl, rfl, ?_, ?_⟩ <;> decide

/-- C4 (amended): `parse_response` raises a retriable error exactly for
the 5xx statuses and an immediate fatal error for every 4xx status
(including 429); a success response whose body is not well-formed JSON
raises a fatal (non-retried) error; separately, the legacy
`HttpClient` session retries exactly the statuses 429, 500, 502, 503
and 504, with capped exponential backoff. -/
theorem parse_response_classification :
    (∀ (status : Nat) (body : Option JVal), 400 ≤ status → status < 500 →
        parse_response status body = Except.error (ApiError.fatal status)) ∧
    (∀ (status : Nat) (body : Option JVal), 500 ≤ status → status < 600 →
        parse_response status body = Except.error (ApiError.retriable status)) ∧
    (∀ status : Nat, status < 400 →
        parse_response status none = Except.error ApiError.fatalJson) ∧
    (∀ (status : Nat) (data : JVal), status < 400 →
        parse_response status (some data) = Except.ok (elementsOf data)) ∧
    (∀ s : Nat, s ∈ status_forcelist ↔
        s = 429 ∨ s = 500 ∨ s = 502 ∨ s = 503 ∨ s = 504) ∧
    (∀ k : Nat, retryBackoff k ≤ 120) := by
  refine ⟨?_, ?_, ?_, ?_, ?_, ?_⟩
  · intro status body h1 h2
    unfold parse_response
    rw [if_pos ⟨h1, by omega⟩, if_neg (by omega)]
  · intro status body h1 h2
    unfold parse_response
    rw [if_pos ⟨by omega, h2⟩, if_pos ⟨h1, h2⟩]
  · intro status h
    unfold parse_response
    rw [if_neg (by omega)]
  · intro status data h
    unfold parse_response
    rw [if_neg (by omega)]
  · intro s
    simp [status_forcelist]
  · intro k
    unfold retryBackoff
    exact Nat.min_le_left _ _

/-- C4 witness: a 404 is fatal at once, a 503 retriable. -/
theorem parse_response_classification_witness :
    parse_response 404 (some (JVal.obj [])) = Except.error (ApiError.fatal 404) ∧
    parse_response 503 none = Except.error (ApiError.retriable 503) :=
  ⟨parse_response_classification.1 404 (some (JVal.obj [])) (by decide) (by decide),
   parse_response_classification.2.1 503 none (by decide) (by decide)⟩

/-- C5: a users-stream page response with HTTP status 403 parses to zero
records with a logged warning (first component) instead of raising,
whatever the body (the 403 check precedes status and JSON handling);
any other status is handled by the base behaviour. -/
theorem users_403_empty_stream :
    ∀ (status : Nat) (body : Option JVal),
      (status = 403 → users_parse_response status body = (true, Except.ok [])) ∧
      (status ≠ 403 →
        users_parse_response status body = (false, parse_response status body)) := by
  intro status body
  constructor
  · intro h
    simp [users_parse_response, h]
  · intro h
    simp [users_parse_response, h]

/-- C5 witness: a 403 with an unparseable body still completes as an
empty record set with a warning. -/
theorem users_403_empty_stream_witness :
    users_parse_response 403 none = (true, Except.ok []) :=
  (users_403_empty_stream 403 none).1 rfl

/-- Evaluating `flatten_link` when the looked-up link is truthy (a
non-empty object). -/
theorem flatten_link_truthy (links : Row) (key : String) (lfs : Row)
    (hd : dictGet links key = some (JVal.obj lfs))
    (ht : truthy (JVal.obj lfs) = true) :
    flatten_link links key true =
      [(key ++ "_title", pyGet lfs "title"),
       (key ++ "_id", optIntJ (extract_id_from_href (asOptStr (pyGet lfs "href"))))] := by
  unfold flatten_link
  rw [hd]
  simp only [Option.getD_some]
  rw [if_pos ht]
  rfl

/-- Evaluating `flatten_link` when the looked-up link is falsy (absent,
null, or an empty object). -/
theorem flatten_link_falsy (links : Row) (key : String)
    (h : truthy ((dictGet links key).getD (JVal.obj [])) = false) :
    flatten_link links key true =
      [(key ++ "_title", JVal.null), (key ++ "_id", JVal.null)] := by
  unfold flatten_link
  rw [if_neg (by simp [h])]
  rfl

theorem dictGet_pair_id (key : String) (t i : JVal) :
    dictGet [(key ++ "_title", t), (key ++ "_id", i)] (key ++ "_id") = some i := by
  simp [dictGet, key_title_ne_key_id key]

theorem dictGet_pair_title (key : String) (t i : JVal) :
    dictGet [(key ++ "_title", t), (key ++ "_id", i)] (key ++ "_title") = some t := by
  simp [dictGet]

/-- C2: for every `_links` object and link key, the link resolver
returns a map with exactly the fields `<key>_title` and `<key>_id`; the
id is extracted by stripping trailing slashes, splitting on `'/'` and
parsing the last segment, and is null whenever the link is absent, the
href is absent, or the parse fails; on well-formed HAL links the id is
int-or-null and the title string-or-null, and no case raises (every
branch is total); the spec's five concrete `extractId` examples hold. -/
theorem flatten_link_contract :
    (extract_id_from_href (some "/api/v3/projects/5") = some 5 ∧
     extract_id_from_href (some "/api/v3/users/123/") = some 123 ∧
     extract_id_from_href none = none ∧
     extract_id_from_href (some "") = none ∧
     extract_id_from_href (some "/api/v3/invalid") = none) ∧
    (∀ (links : Row) (key : String),
        (flatten_link links key true).map Prod.fst = [key ++ "_title", key ++ "_id"]) ∧
    (∀ (links : Row) (key : String), dictGet links key = none →
        flatten_link links key true =
          [(key ++ "_title", JVal.null), (key ++ "_id", JVal.null)]) ∧
    (∀ (links : Row) (key : String) (lfs : Row),
        dictGet links key = some (JVal.obj lfs) → truthy (JVal.obj lfs) = true →
        pyGet lfs "href" = JVal.null →
        dictGet (flatten_link links key true) (key ++ "_id") = some JVal.null) ∧
    (∀ (links : Row) (key : String) (lfs : Row),
        dictGet links key = some (JVal.obj lfs) → truthy (JVal.obj lfs) = true →
        dictGet (flatten_link links key true) (key ++ "_id") =
          some (optIntJ (extract_id_from_href (asOptStr (pyGet lfs "href")))) ∧
        dictGet (flatten_link links key true) (key ++ "_title") =
          some (pyGet lfs "title")) ∧
    (∀ s : String, ¬ s = "" →
        extract_id_from_href (some s) = pyIntOfString? (lastSegment (pyRstripSlash s))) ∧
    (∀ (links : Row) (key : String),
        wfLink ((dictGet links key).getD (JVal.obj [])) = true →
        (dictGet (flatten_link links key true) (key ++ "_id") = some JVal.null ∨
         ∃ n : Int,
           dictGet (flatten_link links key true) (key ++ "_id") = some (JVal.int n)) ∧
        (dictGet (flatten_link links key true) (key ++ "_title") = some JVal.null ∨
         ∃ s : String,
           dictGet (flatten_link links key true) (key ++ "_title") =
             some (JVal.str s))) := by
  refine ⟨⟨by decide, by decide, by decide, by decide, by decide⟩, ?_, ?_, ?_, ?_, ?_, ?_⟩
  · intro links key
    obtain ⟨t, i, hf⟩ := flatten_link_shape links key
    rw [hf]
    rfl
  · intro links key hd
    apply flatten_link_falsy
    rw [hd]
    rfl
  · intro links key lfs hd ht hh
    rw [flatten_link_truthy links key lfs hd ht, hh]
    simpa using dictGet_pair_id key (pyGet lfs "title") JVal.null
  · intro links key lfs hd ht
    rw [flatten_link_truthy links key lfs hd ht]
    exact ⟨dictGet_pair_id key _ _, dictGet_pair_title key _ _⟩
  · intro s hs
    simp [extract_id_from_href, hs]
  · intro links key hwf
    by_cases ht : truthy ((dictGet links key).getD (JVal.obj [])) = true
    · cases hdg : dictGet links key with
      | none =>
        rw [hdg] at ht
        simp [truthy] at ht
      | some v =>
        rw [hdg] at ht hwf
        simp only [Option.getD_some] at ht hwf
        cases v with
        | obj lfs =>
          rw [flatten_link_truthy links key lfs hdg ht]
          constructor
          · cases hx : extract_id_from_href (asOptStr (pyGet lfs "href")) with
            | none =>
              left
              rw [dictGet_pair_id]
              rfl
            | some n =>
              right
              exact ⟨n, by rw [dictGet_pair_id]; rfl⟩
          · rw [dictGet_pair_title]
            unfold wfLink at hwf
            rcases Bool.and_eq_true_iff.mp hwf with ⟨-, hT⟩
            cases hpt : pyGet lfs "title" with
            | null => exact Or.inl rfl
            | str s => exact Or.inr ⟨s, rfl⟩
            | int n => rw [hpt] at hT; cases hT
            | jbool b => rw [hpt] at hT; cases hT
            | obj fs2 => rw [hpt] at hT; cases hT
            | arr es => rw [hpt] at hT; cases hT
        | null => simp [truthy] at ht
        | str s =>
          unfold wfLink at hwf
          cases hwf
        | int n =>
          unfold wfLink at hwf
          cases hwf
        | jbool b =>
          unfold wfLink at hwf
          cases hwf
        | arr es =>
          unfold wfLink at hwf
          cases hwf
    · have hf := flatten_link_falsy links key (by simpa using ht)
      rw [hf, dictGet_pair_id, dictGet_pair_title]
      exact ⟨Or.inl rfl, Or.inl rfl⟩

/-- C2 witness: a concrete parent link with href `/api/v3/projects/7`. -/
theorem flatten_link_contract_witness :
    dictGet (flatten_link [("parent", JVal.obj [("href", JVal.str "/api/v3/projects/7"),
        ("title", JVal.str "Root")])] "parent" true) ("parent" ++ "_id") =
      some (optIntJ (extract_id_from_href (asOptStr (pyGet
        [("href", JVal.str "/api/v3/projects/7"), ("title", JVal.str "Root")] "href")))) :=
  (flatten_link_contract.2.2.2.2.1
    [("parent", JVal.obj [("href", JVal.str "/api/v3/projects/7"),
      ("title", JVal.str "Root")])]
    "parent"
    [("href", JVal.str "/api/v3/projects/7"), ("title", JVal.str "Root")]
    (by rfl) (by rfl)).1

/-- Rows whose `_links` entry, when present and truthy, is an object
with well-formed HAL entries at the given keys; on anything else the
Python post-processing raises instead of returning a row. -/
def rowLinksWF (row : Row) (keys : List String) : Prop :=
  truthyLinks row = none ∨
  ∃ fs, dictGet row "_links" = some (JVal.obj fs) ∧
    ∀ k ∈ keys, wfLink ((dictGet fs k).getD (JVal.obj [])) = true

theorem parent_id_ne_parent_title : ("parent_id" : String) ≠ "parent_title" := by decide

theorem parent_title_ne_parent_id : ("parent_title" : String) ≠ "parent_id" := by decide

/-- C9: `ProjectsStream.post_process` always returns a row containing
the keys `parent_id` and `parent_title` (both null when `_links` is
missing or falsy), and leaves every other field of the input row
unchanged. -/
theorem projects_post_process_frame :
    ∀ row : Row, rowLinksWF row ["parent"] →
      (∃ v, dictGet (ProjectsStream.post_process row) "parent_id" = some v) ∧
      (∃ v, dictGet (ProjectsStream.post_process row) "parent_title" = some v) ∧
      (truthyLinks row = none →
        dictGet (ProjectsStream.post_process row) "parent_id" = some JVal.null ∧
        dictGet (ProjectsStream.post_process row) "parent_title" = some JVal.null) ∧
      (∀ k : String, ¬ k = "parent_id" → ¬ k = "parent_title" →
        dictGet (ProjectsStream.post_process row) k = dictGet row k) := by
  intro row _
  unfold ProjectsStream.post_process
  cases h : truthyLinks row with
  | none =>
    have hid : dictGet (dictSet (dictSet row "parent_id" JVal.null) "parent_title" JVal.null)
        "parent_id" = some JVal.null := by
      rw [dictGet_dictSet_ne _ _ _ _ parent_id_ne_parent_title,
        dictGet_dictSet_self]
    have hti : dictGet (dictSet (dictSet row "parent_id" JVal.null) "parent_title" JVal.null)
        "parent_title" = some JVal.null := dictGet_dictSet_self _ _ _
    refine ⟨⟨JVal.null, hid⟩, ⟨JVal.null, hti⟩, fun _ => ⟨hid, hti⟩, ?_⟩
    intro k hk1 hk2
    rw [dictGet_dictSet_ne _ _ _ _ hk2, dictGet_dictSet_ne _ _ _ _ hk1]
  | some links =>
    obtain ⟨t, i, hf⟩ := flatten_link_shape links "parent"
    have hpt : "parent" ++ "_title" = "parent_title" := rfl
    have hpi : "parent" ++ "_id" = "parent_id" := rfl
    rw [hpt, hpi] at hf
    dsimp only
    rw [hf]
    have hup : dictUpdate row [("parent_title", t), ("parent_id", i)] =
        dictSet (dictSet row "parent_title" t) "parent_id" i := rfl
    rw [hup]
    have hid : dictGet (dictSet (dictSet row "parent_title" t) "parent_id" i)
        "parent_id" = some i := dictGet_dictSet_self _ _ _
    have hti : dictGet (dictSet (dictSet row "parent_title" t) "parent_id" i)
        "parent_title" = some t := by
      rw [dictGet_dictSet_ne _ _ _ _ parent_title_ne_parent_id, dictGet_dictSet_self]
    refine ⟨⟨i, hid⟩, ⟨t, hti⟩, ?_, ?_⟩
    · intro h'
      cases h'
    · intro k hk1 hk2
      rw [dictGet_dictSet_ne _ _ _ _ hk1, dictGet_dictSet_ne _ _ _ _ hk2]

/-- C9 witness: a row without `_links` gains null parent fields and
keeps its `id`. -/
theorem projects_post_process_frame_witness :
    dictGet (ProjectsStream.post_process [("id", JVal.int 1)]) "parent_id" =
      some JVal.null ∧
    dictGet (ProjectsStream.post_process [("id", JVal.int 1)]) "id" =
      some (JVal.int 1) :=
  ⟨((projects_post_process_frame [("id", JVal.int 1)] (Or.inl rfl)).2.2.1 rfl).1,
   by
    rw [(projects_post_process_frame [("id", JVal.int 1)] (Or.inl rfl)).2.2.2 "id"
      (by decide) (by decide)]
    rfl⟩

/-- A memberships record whose roles array holds one element with only
an href and one element with both href and title. -/
def membershipRowCE : Row :=
  [("id", JVal.int 1),
   ("_links", JVal.obj
     [("roles", JVal.arr
       [JVal.obj [("href", JVal.str "/api/v3/roles/1")],
        JVal.obj [("href", JVal.str "/api/v3/roles/2"), ("title", JVal.str "B")]])])]

/-- C6 counterexample: on a roles array `[{href:/api/v3/roles/1},
{href:/api/v3/roles/2, title:"B"}]` post-processing yields
`role_ids = [1, 2]` and `role_titles = ["B"]`; the second element has
both href and title, yet no index carries its id `2` and its title
`"B"` together — the arrays are not correspondingly indexed. -/
theorem memberships_roles_not_parallel :
    dictGet (MembershipsStream.post_process membershipRowCE) "role_ids" =
      some (JVal.arr [JVal.int 1, JVal.int 2]) ∧
    dictGet (MembershipsStream.post_process membershipRowCE) "role_titles" =
      some (JVal.arr [JVal.str "B"]) ∧
    ∀ i : Nat,
      ¬ (([JVal.int 1, JVal.int 2] : List JVal)[i]? = some (JVal.int 2) ∧
         ([JVal.str "B"] : List JVal)[i]? = some (JVal.str "B")) := by
  refine ⟨rfl, rfl, ?_⟩
  intro i
  match i with
  | 0 => simp
  | 1 => simp
  | (n + 2) => simp

/-- C6 (amended): memberships post-processing builds `role_ids` and
`role_titles` by two independent, order-preserving truthiness filters:
ids come from the elements with a truthy href (one entry per such
element, null for a non-numeric href), titles from the elements with a
truthy title; an element missing only its href still contributes its
title; and whenever every element carries both a truthy href and a
truthy title, the two arrays are correspondingly indexed with the
resolver applied per element. -/
theorem memberships_roles_arrays :
    ∀ (row : Row) (links : Row) (rs : List JVal),
      dictGet row "_links" = some (JVal.obj links) →
      truthy (JVal.obj links) = true →
      dictGet links "roles" = some (JVal.arr rs) →
      (dictGet (MembershipsStream.post_process row) "role_ids" =
          some (JVal.arr (MembershipsStream.role_ids_of rs)) ∧
        dictGet (MembershipsStream.post_process row) "role_titles" =
          some (JVal.arr (MembershipsStream.role_titles_of rs))) ∧
      (MembershipsStream.role_ids_of rs).length =
        (rs.filter (fun r => truthy (MembershipsStream.linkGet r "href"))).length ∧
      (MembershipsStream.role_titles_of rs).length =
        (rs.filter (fun r => truthy (MembershipsStream.linkGet r "title"))).length ∧
      (∀ r ∈ rs, truthy (MembershipsStream.linkGet r "href") = false →
        truthy (MembershipsStream.linkGet r "title") = true →
        MembershipsStream.linkGet r "title" ∈ MembershipsStream.role_titles_of rs) ∧
      ((∀ r ∈ rs, truthy (MembershipsStream.linkGet r "href") = true ∧
          truthy (MembershipsStream.linkGet r "title") = true) →
        ∀ (i : Nat) (r : JVal), rs[i]? = some r →
          (MembershipsStream.role_ids_of rs)[i]? =
            some (optIntJ (extract_id_from_href
              (asOptStr (MembershipsStream.linkGet r "href")))) ∧
          (MembershipsStream.role_titles_of rs)[i]? =
            some (MembershipsStream.linkGet r "title")) := by
  intro row links rs h1 h2 hr
  have hTL : truthyLinks row = some links := by
    unfold truthyLinks
    rw [h1]
    simp [h2, objFields]
  refine ⟨?_, ?_, ?_, ?_, ?_⟩
  · unfold MembershipsStream.post_process
    rw [hTL]
    dsimp only
    rw [hr]
    simp only [Option.getD_some]
    constructor
    · rw [dictGet_dictSet_ne _ _ _ _ (by decide : ("role_ids" : String) ≠ "role_titles"),
        dictGet_dictSet_self]
    · rw [dictGet_dictSet_self]
  · simp [MembershipsStream.role_ids_of]
  · simp [MembershipsStream.role_titles_of]
  · intro r hmem hhf htt
    exact List.mem_map.mpr ⟨r, List.mem_filter.mpr ⟨hmem, htt⟩, rfl⟩
  · intro hall i r hri
    have hfid : rs.filter (fun r => truthy (MembershipsStream.linkGet r "href")) = rs :=
      List.filter_eq_self.mpr (fun a ha => (hall a ha).1)
    have hfti : rs.filter (fun r => truthy (MembershipsStream.linkGet r "title")) = rs :=
      List.filter_eq_self.mpr (fun a ha => (hall a ha).2)
    constructor
    · unfold MembershipsStream.role_ids_of
      rw [hfid, List.getElem?_map, hri]
      rfl
    · unfold MembershipsStream.role_titles_of
      rw [hfti, List.getElem?_map, hri]
      rfl

/-- C6 witness: one role with both href and title contributes the
resolved id at index 0. -/
theorem memberships_roles_arrays_witness :
    dictGet (MembershipsStream.post_process
        [("_links", JVal.obj [("roles", JVal.arr
          [JVal.obj [("href", JVal.str "/api/v3/roles/3"),
            ("title", JVal.str "Reader")]])])])
      "role_ids" =
      some (JVal.arr (MembershipsStream.role_ids_of
        [JVal.obj [("href", JVal.str "/api/v3/roles/3"),
          ("title", JVal.str "Reader")]])) :=
  ((memberships_roles_arrays
    [("_links", JVal.obj [("roles", JVal.arr
      [JVal.obj [("href", JVal.str "/api/v3/roles/3"),
        ("title", JVal.str "Reader")]])])]
    [("roles", JVal.arr
      [JVal.obj [("href", JVal.str "/api/v3/roles/3"),
        ("title", JVal.str "Reader")]])]
    [JVal.obj [("href", JVal.str "/api/v3/roles/3"), ("title", JVal.str "Reader")]]
    rfl rfl rfl).1).1

/-- An endpoint containing `".."` is rejected: the occurrence survives
`lstrip('/')` and trips the guard before any URL is built. -/
theorem get_url_error_of_containsDD (base endpoint : String)
    (h : containsDD endpoint = true) :
    ∃ msg, HttpClient.get_url base endpoint = Except.error msg := by
  unfold HttpClient.get_url
  rw [if_pos (by rw [containsDD_lstripSlash _ h]; simp)]
  exact ⟨_, rfl⟩

/-- C7: for every endpoint string, `HttpClient.get` either raises
`ValueError` before any request is issued, or the constructed request
URL starts with the configured (normalised) base URL; path-traversal
endpoints are among those rejected, and a plain endpoint resolves inside
the base. -/
theorem http_get_within_base :
    (∀ base endpoint : String,
        (∃ msg, HttpClient.get_url base endpoint = Except.error msg) ∨
        (∃ url, HttpClient.get_url base endpoint = Except.ok url ∧
          strStarts url base = true)) ∧
    HttpClient.get_url "https://example.com/api/v3" "projects" =
      Except.ok "https://example.com/api/v3/projects" ∧
    (∀ base endpoint : String, containsDD endpoint = true →
        ∃ msg, HttpClient.get_url base endpoint = Except.error msg) := by
  refine ⟨?_, rfl, get_url_error_of_containsDD⟩
  intro base endpoint
  unfold HttpClient.get_url
  by_cases h1 : (containsDD (lstripSlash endpoint) ||
      strStarts (lstripSlash endpoint) "/") = true
  · rw [if_pos h1]
    exact Or.inl ⟨_, rfl⟩
  · rw [if_neg h1]
    by_cases h2 : strStarts (HttpClient.urljoin (base ++ "/") (lstripSlash endpoint))
        base = true
    · rw [if_pos h2]
      exact Or.inr ⟨_, rfl, h2⟩
    · rw [if_neg h2]
      exact Or.inl ⟨_, rfl⟩

/-- C7 witness: a traversal endpoint is rejected. -/
theorem http_get_within_base_witness :
    ∃ msg, HttpClient.get_url "https://example.com/api/v3" "../../etc/passwd" =
      Except.error msg :=
  http_get_within_base.2.2 "https://example.com/api/v3" "../../etc/passwd" (by decide)

/-- C10: every endpoint containing the substring `".."` anywhere —
including inside a single legitimate path-segment name whose resolved
URL would remain inside the configured base, as witnessed by
`work_pack..ages` — raises `ValueError` and issues no request. -/
theorem dotdot_always_rejected :
    (∀ base endpoint : String, containsDD endpoint = true →
        ∃ msg, HttpClient.get_url base endpoint = Except.error msg) ∧
    containsDD "work_pack..ages" = true ∧
    strStarts
      (HttpClient.urljoin ("https://example.com/api/v3" ++ "/") "work_pack..ages")
      "https://example.com/api/v3" = true :=
  ⟨get_url_error_of_containsDD, by decide, by decide⟩

/-- C10 witness: the benign-looking segment `work_pack..ages` is
rejected even though its resolved URL would stay inside the base. -/
theorem dotdot_always_rejected_witness :
    ∃ msg, HttpClient.get_url "https://example.com/api/v3" "work_pack..ages" =
      Except.error msg :=
  dotdot_always_rejected.1 "https://example.com/api/v3" "work_pack..ages" (by decide)

/-- A `startswith` match survives appending a suffix to the haystack. -/
theorem startsList_extend (t u n : List Char) (h : startsList t n = true) :
    startsList (t ++ u) n = true := by
  induction n generalizing t with
  | nil =>
    cases htu : t ++ u with
    | nil => rfl
    | cons c cs => rfl
  | cons d ds ih =>
    cases t with
    | nil => simp [startsList] at h
    | cons c cs =>
      rw [List.cons_append]
      simp only [startsList, Bool.and_eq_true] at h ⊢
      exact ⟨h.1, ih cs h.2⟩

/-- Substring containment survives appending a suffix. -/
theorem containsList_append_right (t u n : List Char) (h : containsList t n = true) :
    containsList (t ++ u) n = true := by
  induction t with
  | nil =>
    have hn : n = [] := by simpa [containsList, List.isEmpty_iff] using h
    subst hn
    cases u with
    | nil => rfl
    | cons c cs => simp [containsList, startsList]
  | cons c cs ih =>
    rw [List.cons_append]
    simp only [containsList, Bool.or_eq_true] at h ⊢
    rcases h with h1 | h2
    · exact Or.inl (by
        have := startsList_extend (c :: cs) u n h1
        rwa [List.cons_append] at this)
    · exact Or.inr (ih h2)

/-- String-level: containment in the left part of an append. -/
theorem strContains_append_right (t u sub : String) (h : strContains t sub = true) :
    strContains (t ++ u) sub = true := by
  unfold strContains at h ⊢
  rw [String.data_append]
  exact containsList_append_right _ _ _ h

/-- String-level: containment in the right part of an append. -/
theorem strContains_append_left (a t sub : String) (h : strContains t sub = true) :
    strContains (a ++ t) sub = true := by
  unfold strContains at h ⊢
  rw [String.data_append]
  exact containsList_append_left _ _ _ h

/-- The filter expression contains the start date verbatim. -/
theorem filterExpr_contains_sd (rk sd : String) :
    strContains (filterExpr rk sd) sd = true :=
  strContains_mid
    ("[\x7b\"" ++ rk ++ "\":\x7b\"operator\":\">=\",\"values\":[\"") sd "\"]\x7d\x7d]"

/-- The filter expression contains the replication key verbatim. -/
theorem filterExpr_contains_rk (rk sd : String) :
    strContains (filterExpr rk sd) rk = true := by
  have h : filterExpr rk sd =
      "[\x7b\"" ++ rk ++
        (("\":\x7b\"operator\":\">=\",\"values\":[\"" ++ sd) ++ "\"]\x7d\x7d]") := by
    unfold filterExpr
    rw [String.append_assoc ("[\x7b\"" ++ rk),
      String.append_assoc ("[\x7b\"" ++ rk)]
  rw [h]
  exact strContains_mid _ _ _

/-- The filter expression contains the `>=` operator. -/
theorem filterExpr_contains_ge (rk sd : String) :
    strContains (filterExpr rk sd) ">=" = true := by
  have h : filterExpr rk sd =
      ("[\x7b\"" ++ rk) ++
        ("\":\x7b\"operator\":\">=\",\"values\":[\"" ++ (sd ++ "\"]\x7d\x7d]")) := by
    unfold filterExpr
    rw [String.append_assoc ("[\x7b\"" ++ rk),
      String.append_assoc ("[\x7b\"" ++ rk),
      String.append_assoc "\":\x7b\"operator\":\">=\",\"values\":[\""]
  rw [h]
  apply strContains_append_left
  apply strContains_append_right
  decide

/-- C3 counterexample: the validator is not an ISO-8601 recognizer in
either direction — the valid ISO-8601 ordinal-date datetime
`2021-048T00:00:00` is rejected, while `2024-06-01x00:00:00`, which is
not ISO-8601 (the separator must be `T`), is accepted, because
`datetime.fromisoformat` permits any single separator character but no
ordinal dates (in every supported interpreter, 3.8 through 3.12). -/
theorem validate_datetime_not_iso8601 :
    isISO8601Datetime "2021-048T00:00:00" = true ∧
    validate_datetime "2021-048T00:00:00" = false ∧
    isISO8601Datetime "2024-06-01x00:00:00" = false ∧
    validate_datetime "2024-06-01x00:00:00" = true := by
  refine ⟨?_, ?_, ?_, ?_⟩ <;> decide

/-- C3 (amended): when a replication key is declared, `start_date` is
set and no prior watermark exists, `get_url_params` embeds `start_date`
into a server-side `>=` filter on the replication key — but only after
validating it; an invalid value raises `ValueError` before any request.
The validator accepts exactly the strings `datetime.fromisoformat`
parses after `Z → +00:00` replacement: all the repo's valid-format
fixtures pass and all its invalid/injection fixtures are rejected,
though the accepted set is not exactly ISO-8601 (see the
counterexample). -/
theorem replication_filter_params :
    (∀ (rk sd : Option String) (tok : Option Int),
        optTruthy rk = true → optTruthy sd = true →
        validate_datetime (sd.getD "") = true →
        ∃ p : UrlParams,
          get_url_params rk sd none tok = Except.ok p ∧
          p.filters = some (filterExpr (rk.getD "") (sd.getD "")) ∧
          strContains (filterExpr (rk.getD "") (sd.getD "")) (sd.getD "") = true ∧
          strContains (filterExpr (rk.getD "") (sd.getD "")) (rk.getD "") = true ∧
          strContains (filterExpr (rk.getD "") (sd.getD "")) ">=" = true) ∧
    (∀ (rk sd : Option String) (tok : Option Int),
        optTruthy rk = true → optTruthy sd = true →
        validate_datetime (sd.getD "") = false →
        ∃ msg, get_url_params rk sd none tok = Except.error msg) ∧
    (∀ (rk sd wm : Option String) (tok : Option Int),
        optTruthy wm = true →
        ∃ p : UrlParams, get_url_params rk sd wm tok = Except.ok p ∧
          p.filters = none) ∧
    (validate_datetime "2024-01-01T00:00:00Z" = true ∧
     validate_datetime "2024-12-31T23:59:59Z" = true ∧
     validate_datetime "2024-06-15T12:30:45+00:00" = true ∧
     validate_datetime "2024-06-15T12:30:45" = true) ∧
    (validate_datetime "not-a-date" = false ∧
     validate_datetime "2024-13-01T00:00:00Z" = false ∧
     validate_datetime "2024-02-30T00:00:00Z" = false ∧
     validate_datetime "" = false ∧
     validate_datetime "'; DROP TABLE projects; --" = false ∧
     validate_datetime "../../etc/passwd" = false ∧
     validate_datetime "<script>alert('xss')</script>" = false) := by
  refine ⟨?_, ?_, ?_, ?_, ?_⟩
  · intro rk sd tok h1 h2 h3
    unfold get_url_params
    rw [if_pos (by rw [h1, h2]; rfl), if_pos h3]
    exact ⟨_, rfl, rfl, filterExpr_contains_sd _ _, filterExpr_contains_rk _ _,
      filterExpr_contains_ge _ _⟩
  · intro rk sd tok h1 h2 h3
    unfold get_url_params
    rw [if_pos (by rw [h1, h2]; rfl), if_neg (by simp [h3])]
    exact ⟨_, rfl⟩
  · intro rk sd wm tok hw
    unfold get_url_params
    rw [if_neg (by simp [hw])]
    exact ⟨_, rfl, rfl⟩
  · refine ⟨?_, ?_, ?_, ?_⟩ <;> decide
  · refine ⟨?_, ?_, ?_, ?_, ?_, ?_, ?_⟩ <;> decide

/-- C3 witness: a stream with replication key `updatedAt` and start
date `2024-06-01T00:00:00Z` gets a validated `>=` filter embedding the
start date. -/
theorem replication_filter_params_witness :
    ∃ p : UrlParams,
      get_url_params (some "updatedAt") (some "2024-06-01T00:00:00Z") none none =
        Except.ok p ∧
      p.filters = some (filterExpr "updatedAt" "2024-06-01T00:00:00Z") ∧
      strContains (filterExpr "updatedAt" "2024-06-01T00:00:00Z")
        "2024-06-01T00:00:00Z" = true ∧
      strContains (filterExpr "updatedAt" "2024-06-01T00:00:00Z") "updatedAt" = true ∧
      strContains (filterExpr "updatedAt" "2024-06-01T00:00:00Z") ">=" = true :=
  replication_filter_params.1 (some "updatedAt") (some "2024-06-01T00:00:00Z") none
    (by decide) (by decide) (by decide)

/-- C8: when config contains `project_identifiers` and no truthy
`project_ids`, the tap resolves identifiers before any stream sync by
paging through the project list; a failed resolution request is logged
and the config is left untouched (the run proceeds without identifier
filtering, no exception escapes); unresolvable identifiers are logged as
missing without failing the run; and when at least one identifier
resolves, the resulting `project_ids` is a duplicate-free list of
integers holding exactly the existing and resolved ids. -/
theorem resolve_identifiers_spec :
    (∀ (fetch : Int → Except Unit TapOpenProject.ProjPage) (fuel : Nat)
        (cfg : TapOpenProject.TapConfig),
        TapOpenProject.projectIdsTruthy cfg = true →
        TapOpenProject.preprocess_config fetch fuel cfg = (cfg, ⟨[], false⟩)) ∧
    (∀ (fetch : Int → Except Unit TapOpenProject.ProjPage) (fuel : Nat)
        (cfg : TapOpenProject.TapConfig),
        cfg.project_identifiers = [] →
        TapOpenProject.preprocess_config fetch fuel cfg = (cfg, ⟨[], false⟩)) ∧
    (∀ (fetch : Int → Except Unit TapOpenProject.ProjPage) (fuel : Nat)
        (cfg : TapOpenProject.TapConfig) (e : Unit),
        TapOpenProject.collectProjects fetch fuel 1 = some (Except.error e) →
        cfg.project_identifiers.isEmpty = false →
        (pyRstripSlash cfg.base_url == "") = false →
        optTruthy cfg.api_key = true →
        TapOpenProject.resolve_project_identifiers fetch fuel cfg = (cfg, ⟨[], true⟩)) ∧
    (∀ (fetch : Int → Except Unit TapOpenProject.ProjPage) (fuel : Nat)
        (cfg : TapOpenProject.TapConfig) (projects : List TapOpenProject.ProjElem),
        TapOpenProject.collectProjects fetch fuel 1 = some (Except.ok projects) →
        cfg.project_identifiers.isEmpty = false →
        (pyRstripSlash cfg.base_url == "") = false →
        optTruthy cfg.api_key = true →
        (TapOpenProject.resolve_project_identifiers fetch fuel cfg).2.missing =
          cfg.project_identifiers.filter
            (fun i => (TapOpenProject.idMapGet
              (TapOpenProject.build_id_map projects) i).isNone) ∧
        (TapOpenProject.resolve_project_identifiers fetch fuel cfg).2.requestError =
          false) ∧
    (∀ (fetch : Int → Except Unit TapOpenProject.ProjPage) (fuel : Nat)
        (cfg : TapOpenProject.TapConfig) (projects : List TapOpenProject.ProjElem),
        TapOpenProject.collectProjects fetch fuel 1 = some (Except.ok projects) →
        cfg.project_identifiers.isEmpty = false →
        (pyRstripSlash cfg.base_url == "") = false →
        optTruthy cfg.api_key = true →
        cfg.project_identifiers.filterMap
          (TapOpenProject.idMapGet (TapOpenProject.build_id_map projects)) ≠ [] →
        ∃ ids : List Int,
          (TapOpenProject.resolve_project_identifiers fetch fuel cfg).1.project_ids =
            some ids ∧
          ids.Nodup ∧
          ∀ n : Int, n ∈ ids ↔
            n ∈ cfg.project_ids.getD [] ++
              cfg.project_identifiers.filterMap
                (TapOpenProject.idMapGet (TapOpenProject.build_id_map projects))) := by
  refine ⟨?_, ?_, ?_, ?_, ?_⟩
  · intro fetch fuel cfg h
    unfold TapOpenProject.preprocess_config
    rw [if_neg (by rw [h]; simp)]
  · intro fetch fuel cfg h
    unfold TapOpenProject.preprocess_config
    rw [if_neg (by rw [h]; simp)]
  · intro fetch fuel cfg e h1 h2 h3 h4
    unfold TapOpenProject.resolve_project_identifiers
    rw [if_neg (by simp [h2]), if_neg (by rw [h3, h4]; simp), h1]
  · intro fetch fuel cfg projects h1 h2 h3 h4
    unfold TapOpenProject.resolve_project_identifiers
    rw [if_neg (by simp [h2]), if_neg (by rw [h3, h4]; simp), h1]
    dsimp only
    by_cases hre : (cfg.project_identifiers.filterMap
        (TapOpenProject.idMapGet (TapOpenProject.build_id_map projects))).isEmpty = true
    · rw [if_pos hre]
      exact ⟨rfl, rfl⟩
    · rw [if_neg hre]
      exact ⟨rfl, rfl⟩
  · intro fetch fuel cfg projects h1 h2 h3 h4 h5
    unfold TapOpenProject.resolve_project_identifiers
    rw [if_neg (by simp [h2]), if_neg (by rw [h3, h4]; simp), h1]
    dsimp only
    have hre : (cfg.project_identifiers.filterMap
        (TapOpenProject.idMapGet (TapOpenProject.build_id_map projects))).isEmpty =
        false := by
      cases hx : cfg.project_identifiers.filterMap
          (TapOpenProject.idMapGet (TapOpenProject.build_id_map projects)) with
      | nil => exact absurd hx h5
      | cons a as => rfl
    rw [if_neg (by simp [hre])]
    exact ⟨_, rfl, List.nodup_dedup _, fun n => List.mem_dedup⟩

/-- A one-page project server for the C8 witness. -/
def fetchW : Int → Except Unit TapOpenProject.ProjPage := fun _ =>
  Except.ok ⟨[⟨some "alpha", 7⟩, ⟨some "beta", 9⟩], some 2⟩

/-- A config with duplicate and unresolvable identifiers for the C8
witness. -/
def cfgW : TapOpenProject.TapConfig :=
  ⟨["alpha", "alpha", "gamma"], none, "https://example.com/api/v3", some "key"⟩

/-- C8 witness: `alpha` (twice) and `gamma` resolve against a server
knowing `alpha ↦ 7`, `beta ↦ 9`, producing a deduplicated id list. -/
theorem resolve_identifiers_spec_witness :
    ∃ ids : List Int,
      (TapOpenProject.resolve_project_identifiers fetchW 1 cfgW).1.project_ids =
        some ids ∧
      ids.Nodup ∧
      ∀ n : Int, n ∈ ids ↔
        n ∈ cfgW.project_ids.getD [] ++
          cfgW.project_identifiers.filterMap
            (TapOpenProject.idMapGet (TapOpenProject.build_id_map
              [⟨some "alpha", 7⟩, ⟨some "beta", 9⟩])) :=
  resolve_identifiers_spec.2.2.2.2 fetchW 1 cfgW
    [⟨some "alpha", 7⟩, ⟨some "beta", 9⟩] rfl rfl (by decide) rfl (by decide)
